import Mathlib

/-!
Shallow embedding of the data-transfer engine
(`TransferEngine` in the repository source, together with its
`createTransferEngine` factory).

The engine connects a source provider to a destination provider and moves
data through five named stages, keeping per-stage counters
(`transferProgress`) and emitting `start` / `progress` / `complete` events
on a progress stream.

Modelling decisions (all traceable to the source):
* Items flowing through a stage are JSON values (`Json` below); the byte
  size of an item is the length of `JSON.stringify(data)`, embedded as a
  structural `Json.stringify` over the same grammar.  Arrays and object
  field lists are their own inductive types (`JsonList`, `JsonFields`) so
  that all recursions stay structural.
* JavaScript objects are association lists in insertion order; an update
  touches the first matching key, mirroring a JS object's unique keys.
* `version.split('.')` is embedded as a structural tokenizer with the
  exact semantics of the JS single-character split.
* Node streams are abstracted to their observable behaviour in the engine:
  a source stream is a finite list of items delivered in order, a
  destination stream is a sink that acknowledges every item and then
  closes.  Optional capabilities (`streamSchemas?.()` etc.) are `Option`s.
* The class fields `sourceProvider`, `destinationProvider`, `options` are
  immutable after construction, so the methods take them as parameters;
  the mutable state (`transferProgress`, the events written to
  `progressStream`, the console output) is threaded explicitly.
* Promise rejection is `Except`; the error value carries the engine state
  at the moment of rejection so that already-emitted events stay
  observable, exactly as writes to `progressStream` persist in JS.
-/

set_option autoImplicit false

namespace DataTransfer

mutual

/-- JSON values, the item type flowing through every stage. -/
inductive Json where
  | str : String → Json
  | num : Int → Json
  | jbool : Bool → Json
  | null : Json
  | arr : JsonList → Json
  | obj : JsonFields → Json

/-- The elements of a JSON array. -/
inductive JsonList where
  | nil : JsonList
  | cons : Json → JsonList → JsonList

/-- The fields of a JSON object, in insertion order. -/
inductive JsonFields where
  | nil : JsonFields
  | cons : String → Json → JsonFields → JsonFields

end

mutual

/-- Embeds `JSON.stringify(data)` as used by
`#incrementTransferProgress` to compute an item's byte size. -/
def Json.stringify : Json → String
  | .str s => "\"" ++ s ++ "\""
  | .num n => toString n
  | .jbool true => "true"
  | .jbool false => "false"
  | .null => "null"
  | .arr xs => "[" ++ JsonList.stringify xs ++ "]"
  | .obj fs => "\x7b" ++ JsonFields.stringify fs ++ "\x7d"

def JsonList.stringify : JsonList → String
  | .nil => ""
  | .cons x .nil => Json.stringify x
  | .cons x xs => Json.stringify x ++ "," ++ JsonList.stringify xs

def JsonFields.stringify : JsonFields → String
  | .nil => ""
  | .cons k v .nil => "\"" ++ k ++ "\":" ++ Json.stringify v
  | .cons k v fs => "\"" ++ k ++ "\":" ++ Json.stringify v ++ "," ++ JsonFields.stringify fs

end

/-- The serialized size of an item: `JSON.stringify(data).length`. -/
def Json.size (j : Json) : Nat :=
  j.stringify.length

mutual

/-- JavaScript string coercion `String(value)`, used when a value becomes
an object key (`aggregates[aggKeyValue]`). -/
def Json.toKeyString : Json → String
  | .str s => s
  | .num n => toString n
  | .jbool true => "true"
  | .jbool false => "false"
  | .null => "null"
  | .arr xs => JsonList.toKeyString xs
  | .obj _ => "[object Object]"

def JsonList.toKeyString : JsonList → String
  | .nil => ""
  | .cons x .nil => Json.toKeyString x
  | .cons x xs => Json.toKeyString x ++ "," ++ JsonList.toKeyString xs

end

/-- Field lookup in an object's field list (first matching key, as in a JS
object, whose keys are unique). -/
def JsonFields.find? (key : String) : JsonFields → Option Json
  | .nil => none
  | .cons k v fs => if k = key then some v else JsonFields.find? key fs

/-- Lodash `_.has(key, data)` for a top-level key: true iff `data` is an
object carrying the key. -/
def Json.hasKey (key : String) : Json → Bool
  | .obj fs => (fs.find? key).isSome
  | _ => false

/-- JavaScript member access `data[key]` on an object. -/
def Json.getKey (key : String) : Json → Option Json
  | .obj fs => fs.find? key
  | _ => none

/-- The `versionMatching` strategy of `ITransferEngineOptions`. -/
inductive VersionStrategy where
  | ignore
  | exact
  | major
  | minor
  | patch
deriving DecidableEq, Repr

/-- The strategy's name as interpolated into the mismatch diagnostic. -/
def VersionStrategy.name : VersionStrategy → String
  | .ignore => "ignore"
  | .exact => "exact"
  | .major => "major"
  | .minor => "minor"
  | .patch => "patch"

/-- JavaScript truthiness of an optional string
(`!sourceVersion` is true for `undefined` and for `""`). -/
def jsTruthyStr : Option String → Bool
  | none => false
  | some s => s ≠ ""

/-- Structural worker for `jsSplitDot`: `acc` is the current token,
reversed. -/
def splitDotAux : List Char → List Char → List String
  | [], acc => [acc.reverse.asString]
  | c :: rest, acc =>
    if c = '.' then acc.reverse.asString :: splitDotAux rest []
    else splitDotAux rest (c :: acc)

/-- JavaScript `s.split('.')`: split on every dot, keeping empty tokens
(`"" → [""]`, `"1." → ["1", ""]`). -/
def jsSplitDot (s : String) : List String :=
  splitDotAux s.toList []

/-- One positional token comparison from `assertStrapiVersionIntegrity`:
`sourceTokens.map((value, index) => value === destinationTokens[index])`
destructured into `major` / `minor` / `patch`.  Index `i` beyond the
source token list destructures to `undefined`, which is falsy. -/
def tokensAgree (sourceTokens destinationTokens : List String) (i : Nat) : Bool :=
  match sourceTokens.get? i with
  | none => false
  | some v => destinationTokens.get? i = some v

/-- The diagnostic thrown on a version mismatch, naming the strategy and
both versions. -/
def versionMismatchMessage (strategy : VersionStrategy) (sourceVersion destinationVersion : String) : String :=
  "Strapi versions doesn't match (" ++ strategy.name ++ " check): " ++ sourceVersion
    ++ " does not match with " ++ destinationVersion ++ " "

/-- Embeds `TransferEngine.assertStrapiVersionIntegrity`.  Returns `.ok`
where the source returns normally and `.error` with the thrown message. -/
def assertStrapiVersionIntegrity (strategy : VersionStrategy)
    (sourceVersion destinationVersion : Option String) : Except String Unit :=
  if ¬ jsTruthyStr sourceVersion ∨ ¬ jsTruthyStr destinationVersion then
    .ok ()
  else
    let sv := sourceVersion.getD ""
    let dv := destinationVersion.getD ""
    if strategy = .ignore then
      .ok ()
    else if strategy = .exact ∧ sv = dv then
      .ok ()
    else
      let sourceTokens := jsSplitDot sv
      let destinationTokens := jsSplitDot dv
      let major := tokensAgree sourceTokens destinationTokens 0
      let minor := tokensAgree sourceTokens destinationTokens 1
      let patch := tokensAgree sourceTokens destinationTokens 2
      if (strategy = .major ∧ major) ∨ (strategy = .minor ∧ major ∧ minor)
          ∨ (strategy = .patch ∧ major ∧ minor ∧ patch) then
        .ok ()
      else
        .error (versionMismatchMessage strategy sv dv)

/-- The five pipeline phases, the `TransferStage` union of the source. -/
inductive TransferStage where
  | schemas
  | entities
  | links
  | media
  | configuration
deriving DecidableEq, Repr

/-- One aggregate bucket: `{count, bytes}`. -/
structure AggregateEntry where
  count : Nat
  bytes : Nat
deriving DecidableEq, Repr

/-- One per-stage record of `TransferProgress`: `{count, bytes,
aggregates?}`, the aggregates object created lazily. -/
structure ProgressEntry where
  count : Nat
  bytes : Nat
  aggregates : Option (List (String × AggregateEntry))
deriving DecidableEq, Repr

/-- The engine's `transferProgress` object: stage keys in insertion
order. -/
abbrev TransferProgress := List (TransferStage × ProgressEntry)

/-- Key membership in a JS object modelled as an association list
(`_.has(key, o)`). -/
def lookupEntry {α β : Type} [DecidableEq α] (k : α) : List (α × β) → Option β
  | [] => none
  | (k', v) :: rest => if k' = k then some v else lookupEntry k rest

/-- In-place update `o[k] = f(o[k])` of a JS object modelled as an
association list; the key is assumed present (JS object keys are unique,
so only the first occurrence is touched). -/
def updateEntry {α β : Type} [DecidableEq α] (k : α) (f : β → β) : List (α × β) → List (α × β)
  | [] => []
  | (k', v) :: rest => if k' = k then (k', f v) :: rest else (k', v) :: updateEntry k f rest

/-- Embeds `TransferEngine.#incrementTransferProgress(name, data,
aggregateKey?)`: creates the stage entry on first use, adds 1 to its
count and `JSON.stringify(data).length` to its bytes, and, when an
aggregate key is given and present on the item, does the same to the
nested bucket keyed by the item's value for that key, creating the
`aggregates` object and the bucket (at zero) on first use. -/
def incrementTransferProgress (name : TransferStage) (data : Json) (aggregateKey : Option String)
    (tp : TransferProgress) : TransferProgress :=
  let tp := if (lookupEntry name tp).isSome then tp else tp ++ [(name, ⟨0, 0, none⟩)]
  let size := data.size
  let tp := updateEntry name (fun e => { e with count := e.count + 1, bytes := e.bytes + size }) tp
  match aggregateKey with
  | none => tp
  | some key =>
    if data.hasKey key then
      let aggKeyValue := ((data.getKey key).getD .null).toKeyString
      updateEntry name (fun e =>
        let aggs := e.aggregates.getD []
        let aggs :=
          if (lookupEntry aggKeyValue aggs).isSome then aggs
          else aggs ++ [(aggKeyValue, ⟨0, 0⟩)]
        let aggs := updateEntry aggKeyValue (fun b => ⟨b.count + 1, b.bytes + size⟩) aggs
        { e with aggregates := some aggs }) tp
    else
      tp

/-- The discriminant of a `ProgressEvent`. -/
inductive EventType where
  | start
  | progress
  | complete
deriving DecidableEq, Repr

/-- One event written to `progressStream`.  In JS the event also carries
`data: this.transferProgress`, a live reference to the single mutable
progress object; the engine state next to an event trace plays that
role here. -/
structure ProgressEvent where
  type : EventType
  name : TransferStage
deriving DecidableEq, Repr

/-- The mutable state of a `TransferEngine` instance: the progress
counters, the events written to `#progressStream` in order, and the
console output (`console.warn` / `console.error`) in order. -/
structure EngineState where
  transferProgress : TransferProgress
  events : List ProgressEvent
  warnings : List String
  errorLogs : List String
deriving DecidableEq, Repr

/-- Metadata's `strapi` sub-object, with its optional `version`. -/
structure StrapiInfo where
  version : Option String
deriving DecidableEq, Repr

/-- The result of a provider's `getMetadata()`; a falsy result is
`none`. -/
structure ProviderMetadata where
  strapi : Option StrapiInfo
deriving DecidableEq, Repr

/-- A source provider, abstracted to what the engine observes: each
optional `streamX` capability yields the finite ordered item sequence
its stream would produce. -/
structure ISourceProvider where
  name : String
  results : Json
  metadata : Option ProviderMetadata
  streamSchemas : Option (List Json)
  streamEntities : Option (List Json)
  streamLinks : Option (List Json)
  streamConfiguration : Option (List Json)

/-- A destination provider: each optional `getXStream` capability is a
sink that acknowledges every item and then closes. -/
structure IDestinationProvider where
  name : String
  results : Json
  metadata : Option ProviderMetadata
  hasSchemasStream : Bool
  hasEntitiesStream : Bool
  hasLinksStream : Bool
  hasConfigurationStream : Bool

/-- `ITransferEngineOptions`, supplied at construction and immutable. -/
structure ITransferEngineOptions where
  conflictStrategy : String
  versionMatching : VersionStrategy
  exclude : List String

/-- `ITransferResults`: each provider's own result object. -/
structure ITransferResults where
  source : Json
  destination : Json

/-- The engine state `createTransferEngine` (through the class
constructor) starts from: empty progress, no events, no console
output. -/
def createTransferEngine (_src : ISourceProvider) (_dst : IDestinationProvider)
    (_opts : ITransferEngineOptions) : EngineState :=
  ⟨[], [], [], []⟩

/-- Embeds `#updateStep`: write a `start` or `complete` event to the
progress stream. -/
def updateStep (type : EventType) (name : TransferStage) (e : EngineState) : EngineState :=
  { e with events := e.events ++ [⟨type, name⟩] }

/-- One `transform` call of the `#countRecorder` PassThrough: record the
item, then write a `progress` event, then forward the item unchanged. -/
def countRecorderStep (name : TransferStage) (aggregateKey : Option String)
    (e : EngineState) (data : Json) : EngineState :=
  let e := { e with transferProgress := incrementTransferProgress name data aggregateKey e.transferProgress }
  { e with events := e.events ++ [⟨.progress, name⟩] }

/-- `inStream.pipe(this.#countRecorder(name, aggregateKey)).pipe(outStream)`:
every item of the source stream passes through the count recorder in
order; the destination acknowledges each one. -/
def pipeThrough (name : TransferStage) (aggregateKey : Option String)
    (items : List Json) (e : EngineState) : EngineState :=
  items.foldl (countRecorderStep name aggregateKey) e

/-- Embeds `TransferEngine.transferSchemas`.  A rejected promise is
`.error (message, state)`, the state keeping the events already written. -/
def transferSchemas (src : ISourceProvider) (dst : IDestinationProvider)
    (e : EngineState) : Except (String × EngineState) EngineState :=
  match src.streamSchemas with
  | none => .error ("Unable to transfer schemas, source stream is missing", e)
  | some items =>
    if dst.hasSchemasStream then
      let e := updateStep .start .schemas e
      let e := pipeThrough .schemas none items e
      .ok (updateStep .complete .schemas e)
    else
      .error ("Unable to transfer schemas, destination stream is missing", e)

/-- Embeds `TransferEngine.transferEntities`; the count recorder runs
with aggregate key `type`. -/
def transferEntities (src : ISourceProvider) (dst : IDestinationProvider)
    (e : EngineState) : Except (String × EngineState) EngineState :=
  match src.streamEntities with
  | none => .error ("Unable to transfer entities, source stream is missing", e)
  | some items =>
    if dst.hasEntitiesStream then
      let e := updateStep .start .entities e
      let e := pipeThrough .entities (some "type") items e
      .ok (updateStep .complete .entities e)
    else
      .error ("Unable to transfer entities, destination stream is missing", e)

/-- Embeds `TransferEngine.transferLinks`. -/
def transferLinks (src : ISourceProvider) (dst : IDestinationProvider)
    (e : EngineState) : Except (String × EngineState) EngineState :=
  match src.streamLinks with
  | none => .error ("Unable to transfer links, source stream is missing", e)
  | some items =>
    if dst.hasLinksStream then
      let e := updateStep .start .links e
      let e := pipeThrough .links none items e
      .ok (updateStep .complete .links e)
    else
      .error ("Unable to transfer links, destination stream is missing", e)

/-- Embeds `TransferEngine.transferMedia`: the stub stage.  It writes its
`start` event, warns that it is unimplemented, writes its `complete`
event and resolves; no stream is consulted and no progress is recorded. -/
def transferMedia (e : EngineState) : Except (String × EngineState) EngineState :=
  let e := updateStep .start .media e
  let e := { e with warnings := e.warnings ++ ["transferMedia not yet implemented"] }
  .ok (updateStep .complete .media e)

/-- Embeds `TransferEngine.transferConfiguration`. -/
def transferConfiguration (src : ISourceProvider) (dst : IDestinationProvider)
    (e : EngineState) : Except (String × EngineState) EngineState :=
  match src.streamConfiguration with
  | none => .error ("Unable to transfer configuration, source stream is missing", e)
  | some items =>
    if dst.hasConfigurationStream then
      let e := updateStep .start .configuration e
      let e := pipeThrough .configuration none items e
      .ok (updateStep .complete .configuration e)
    else
      .error ("Unable to transfer configuration, destination stream is missing", e)

/-- Embeds `TransferEngine.integrityCheck`.  Returns the boolean the
method resolves with; a version-assertion failure is caught here, logged
with `console.error`, and turned into `false`. -/
def integrityCheck (src : ISourceProvider) (dst : IDestinationProvider)
    (opts : ITransferEngineOptions) (e : EngineState) : Bool × EngineState :=
  match src.metadata, dst.metadata with
  | some sourceMetadata, some destinationMetadata =>
    match assertStrapiVersionIntegrity opts.versionMatching
        (sourceMetadata.strapi.bind (fun s => s.version))
        (destinationMetadata.strapi.bind (fun s => s.version)) with
    | .ok _ => (true, e)
    | .error msg => (false, { e with errorLogs := e.errorLogs ++ ["Integrity checks failed: " ++ msg] })
  | _, _ => (true, e)

/-- The error `transfer()` throws when `integrityCheck()` resolves
false; it names the two providers, not the versions. -/
def genericTransferError (src : ISourceProvider) (dst : IDestinationProvider) : String :=
  "Unable to transfer the data between " ++ src.name ++ " and " ++ dst.name
    ++ ".\nPlease refer to the log above for more information."

/-- Embeds `TransferEngine.transfer`: bootstrap (whose optional provider
hooks change nothing the engine observes), integrity check aborting with
the generic error, then the five stages in the source's order —
schemas, entities, media, links, configuration — then `close()` (again
unobservable here), returning both providers' result objects.  The
`catch` block rethrows the caught error unchanged, so every stage
rejection passes through as-is. -/
def transfer (src : ISourceProvider) (dst : IDestinationProvider)
    (opts : ITransferEngineOptions) (e : EngineState) :
    Except (String × EngineState) (EngineState × ITransferResults) :=
  let isValidTransfer := integrityCheck src dst opts e
  if ¬ isValidTransfer.1 then
    .error (genericTransferError src dst, isValidTransfer.2)
  else
    match transferSchemas src dst isValidTransfer.2 with
    | .error r => .error r
    | .ok e =>
      match transferEntities src dst e with
      | .error r => .error r
      | .ok e =>
        match transferMedia e with
        | .error r => .error r
        | .ok e =>
          match transferLinks src dst e with
          | .error r => .error r
          | .ok e =>
            match transferConfiguration src dst e with
            | .error r => .error r
            | .ok e => .ok (e, ⟨src.results, dst.results⟩)

/-! ### Accessors over the progress model

All accessors read an absent entry as zero, which is also how the code
behaves observably: an entry or bucket is created `{count: 0, bytes: 0}`
the moment it is first needed. -/

/-- The stage's `ProgressEntry`, defaulting to freshly-created values. -/
def entryOf (tp : TransferProgress) (s : TransferStage) : ProgressEntry :=
  (lookupEntry s tp).getD ⟨0, 0, none⟩

/-- `transferProgress[s].count`, zero when the stage was never recorded. -/
def stageCount (tp : TransferProgress) (s : TransferStage) : Nat :=
  (entryOf tp s).count

/-- `transferProgress[s].bytes`, zero when the stage was never recorded. -/
def stageBytes (tp : TransferProgress) (s : TransferStage) : Nat :=
  (entryOf tp s).bytes

/-- An aggregate bucket of a `ProgressEntry`, defaulting to zero. -/
def bucketOf (e : ProgressEntry) (k : String) : AggregateEntry :=
  (lookupEntry k (e.aggregates.getD [])).getD ⟨0, 0⟩

/-- `transferProgress[s].aggregates[k].count`, zero when absent. -/
def aggCount (tp : TransferProgress) (s : TransferStage) (k : String) : Nat :=
  (bucketOf (entryOf tp s) k).count

/-- `transferProgress[s].aggregates[k].bytes`, zero when absent. -/
def aggBytes (tp : TransferProgress) (s : TransferStage) (k : String) : Nat :=
  (bucketOf (entryOf tp s) k).bytes

/-- Sum of `count` over all aggregate buckets of a stage. -/
def sumAggCounts (tp : TransferProgress) (s : TransferStage) : Nat :=
  ((((entryOf tp s).aggregates).getD []).map (fun p => p.2.count)).sum

/-- Sum of `bytes` over all aggregate buckets of a stage. -/
def sumAggBytes (tp : TransferProgress) (s : TransferStage) : Nat :=
  ((((entryOf tp s).aggregates).getD []).map (fun p => p.2.bytes)).sum

/-- The object key under which an item lands in `aggregates`:
`String(data[aggregateKey])`. -/
def aggKeyOf (item : Json) (key : String) : String :=
  ((item.getKey key).getD .null).toKeyString

/-! ### Association-list lemmas -/

section AssocLemmas

variable {α β : Type} [DecidableEq α]

theorem lookupEntry_append (k : α) (l₁ l₂ : List (α × β)) :
    lookupEntry k (l₁ ++ l₂) =
      match lookupEntry k l₁ with
      | some v => some v
      | none => lookupEntry k l₂ := by
  induction l₁ with
  | nil => simp [lookupEntry]
  | cons hd tl ih =>
    obtain ⟨k₀, v₀⟩ := hd
    by_cases h : k₀ = k <;> simp [lookupEntry, h, ih]

theorem lookupEntry_updateEntry (k k' : α) (f : β → β) (l : List (α × β)) :
    lookupEntry k' (updateEntry k f l) =
      if k' = k then (lookupEntry k l).map f else lookupEntry k' l := by
  induction l with
  | nil => by_cases h : k' = k <;> simp [lookupEntry, updateEntry, h]
  | cons hd tl ih =>
    obtain ⟨k₀, v₀⟩ := hd
    by_cases h₀ : k₀ = k <;> by_cases h' : k' = k
    · subst h₀; subst h'
      simp [lookupEntry, updateEntry]
    · subst h₀
      have hne : ¬ k₀ = k' := fun h => h' h.symm
      simp [lookupEntry, updateEntry, h', hne]
    · subst h'
      have hne : ¬ k₀ = k' := h₀
      simp [lookupEntry, updateEntry, h₀, hne, ih]
    · by_cases h₂ : k₀ = k' <;> simp [lookupEntry, updateEntry, h₀, h', h₂, ih]

theorem sum_map_updateEntry (k : α) (f : β → β) (g : β → Nat) (c : Nat) (l : List (α × β))
    (hk : (lookupEntry k l).isSome) (hf : ∀ b, g (f b) = g b + c) :
    ((updateEntry k f l).map (fun p => g p.2)).sum = (l.map (fun p => g p.2)).sum + c := by
  induction l with
  | nil => simp [lookupEntry] at hk
  | cons hd tl ih =>
    obtain ⟨k₀, v₀⟩ := hd
    by_cases h₀ : k₀ = k
    · simp [updateEntry, h₀, hf]
      omega
    · simp [lookupEntry, h₀] at hk
      simp [updateEntry, lookupEntry, h₀, ih hk]
      omega

/-- Looking up after a create-if-absent step (`if (!_.has(k, o)) o[k] = d`). -/
theorem lookupEntry_ensureIf (k : α) (d : β) (l : List (α × β)) (s : α) :
    lookupEntry s (if (lookupEntry k l).isSome then l else l ++ [(k, d)]) =
      if s = k then some ((lookupEntry k l).getD d) else lookupEntry s l := by
  by_cases hn : (lookupEntry k l).isSome
  · obtain ⟨e₀, he₀⟩ := Option.isSome_iff_exists.mp hn
    by_cases hs : s = k <;> simp [hs, he₀]
  · have he : lookupEntry k l = none := Option.not_isSome_iff_eq_none.mp hn
    rw [he]
    by_cases hs : s = k
    · subst hs
      simp [lookupEntry_append, he, lookupEntry]
    · have hs' : ¬ k = s := fun h => hs h.symm
      simp only [Option.isSome_none, Bool.false_eq_true, if_false, if_neg hs]
      rw [lookupEntry_append]
      cases h : lookupEntry s l <;> simp [lookupEntry, hs']

end AssocLemmas

/-- The effect of one `#incrementTransferProgress` call on the stage's own
entry, as a pure function on `ProgressEntry`.  This is the per-entry
reading of the method body: bump `count`/`bytes`, then treat the
aggregates. -/
def applyIncrement (data : Json) (aggregateKey : Option String) (e : ProgressEntry) : ProgressEntry :=
  let size := data.size
  let e := { e with count := e.count + 1, bytes := e.bytes + size }
  match aggregateKey with
  | none => e
  | some key =>
    if data.hasKey key then
      let aggKeyValue := aggKeyOf data key
      let aggs := e.aggregates.getD []
      let aggs :=
        if (lookupEntry aggKeyValue aggs).isSome then aggs
        else aggs ++ [(aggKeyValue, ⟨0, 0⟩)]
      { e with aggregates := some (updateEntry aggKeyValue (fun b => ⟨b.count + 1, b.bytes + size⟩) aggs) }
    else
      e

/-- Looking up after the create-if-absent step at the head of
`#incrementTransferProgress`. -/
theorem lookupEntry_ensure (name : TransferStage) (tp : TransferProgress) (s : TransferStage) :
    lookupEntry s
        (if (lookupEntry name tp).isSome then tp else tp ++ [(name, ⟨0, 0, none⟩)]) =
      if s = name then some (entryOf tp name) else lookupEntry s tp := by
  simp [lookupEntry_ensureIf, entryOf]

/-- `#incrementTransferProgress` is exactly `applyIncrement` on the
stage's entry (read as zero when absent) and identity elsewhere. -/
theorem lookupEntry_incrementTransferProgress (name : TransferStage) (data : Json)
    (aggregateKey : Option String) (tp : TransferProgress) (s : TransferStage) :
    lookupEntry s (incrementTransferProgress name data aggregateKey tp) =
      if s = name then some (applyIncrement data aggregateKey (entryOf tp name))
      else lookupEntry s tp := by
  cases aggregateKey with
  | none =>
    by_cases hs : s = name <;>
      simp [incrementTransferProgress, lookupEntry_updateEntry, lookupEntry_ensure, hs,
        applyIncrement]
  | some key =>
    by_cases hk : data.hasKey key <;> by_cases hs : s = name <;>
      simp [incrementTransferProgress, lookupEntry_updateEntry, lookupEntry_ensure, hs, hk,
        applyIncrement, aggKeyOf]

theorem entryOf_increment (name : TransferStage) (data : Json) (aggregateKey : Option String)
    (tp : TransferProgress) (s : TransferStage) :
    entryOf (incrementTransferProgress name data aggregateKey tp) s =
      if s = name then applyIncrement data aggregateKey (entryOf tp name)
      else entryOf tp s := by
  unfold entryOf
  rw [lookupEntry_incrementTransferProgress]
  by_cases hs : s = name <;> simp [hs, entryOf]

theorem applyIncrement_count (data : Json) (aggregateKey : Option String) (e : ProgressEntry) :
    (applyIncrement data aggregateKey e).count = e.count + 1 := by
  cases aggregateKey with
  | none => rfl
  | some key => by_cases hk : data.hasKey key <;> simp [applyIncrement, hk]

theorem applyIncrement_bytes (data : Json) (aggregateKey : Option String) (e : ProgressEntry) :
    (applyIncrement data aggregateKey e).bytes = e.bytes + data.size := by
  cases aggregateKey with
  | none => rfl
  | some key => by_cases hk : data.hasKey key <;> simp [applyIncrement, hk]

theorem applyIncrement_aggregates_none (data : Json) (e : ProgressEntry) :
    (applyIncrement data none e).aggregates = e.aggregates := rfl

theorem applyIncrement_aggregates_miss (data : Json) (key : String) (e : ProgressEntry)
    (hk : data.hasKey key = false) :
    (applyIncrement data (some key) e).aggregates = e.aggregates := by
  simp [applyIncrement, hk]

theorem applyIncrement_aggregates_hit (data : Json) (key : String) (e : ProgressEntry)
    (hk : data.hasKey key = true) :
    (applyIncrement data (some key) e).aggregates =
      some (updateEntry (aggKeyOf data key)
        (fun b => ⟨b.count + 1, b.bytes + data.size⟩)
        (if (lookupEntry (aggKeyOf data key) (e.aggregates.getD [])).isSome
          then e.aggregates.getD []
          else e.aggregates.getD [] ++ [(aggKeyOf data key, ⟨0, 0⟩)])) := by
  simp [applyIncrement, hk]

theorem bucketOf_applyIncrement_hit (data : Json) (key : String) (e : ProgressEntry)
    (hk : data.hasKey key = true) (k' : String) :
    bucketOf (applyIncrement data (some key) e) k' =
      if k' = aggKeyOf data key then
        ⟨(bucketOf e k').count + 1, (bucketOf e k').bytes + data.size⟩
      else bucketOf e k' := by
  unfold bucketOf
  rw [applyIncrement_aggregates_hit data key e hk]
  simp only [Option.getD_some]
  rw [lookupEntry_updateEntry]
  by_cases hb : k' = aggKeyOf data key <;> simp [hb, lookupEntry_ensureIf]

theorem stageCount_increment (name : TransferStage) (data : Json) (aggregateKey : Option String)
    (tp : TransferProgress) (s : TransferStage) :
    stageCount (incrementTransferProgress name data aggregateKey tp) s =
      if s = name then stageCount tp s + 1 else stageCount tp s := by
  by_cases hs : s = name <;>
    simp [stageCount, entryOf_increment, hs, applyIncrement_count]

theorem stageBytes_increment (name : TransferStage) (data : Json) (aggregateKey : Option String)
    (tp : TransferProgress) (s : TransferStage) :
    stageBytes (incrementTransferProgress name data aggregateKey tp) s =
      if s = name then stageBytes tp s + data.size else stageBytes tp s := by
  by_cases hs : s = name <;>
    simp [stageBytes, entryOf_increment, hs, applyIncrement_bytes]

theorem bucketOf_increment_hit (name : TransferStage) (data : Json) (key : String)
    (tp : TransferProgress) (hk : data.hasKey key = true) (k' : String) :
    bucketOf (entryOf (incrementTransferProgress name data (some key) tp) name) k' =
      if k' = aggKeyOf data key then
        ⟨(bucketOf (entryOf tp name) k').count + 1,
         (bucketOf (entryOf tp name) k').bytes + data.size⟩
      else bucketOf (entryOf tp name) k' := by
  rw [entryOf_increment]
  simp [bucketOf_applyIncrement_hit data key _ hk]

theorem bucketOf_increment_miss (name : TransferStage) (data : Json) (key : String)
    (tp : TransferProgress) (hk : data.hasKey key = false) (k' : String) :
    bucketOf (entryOf (incrementTransferProgress name data (some key) tp) name) k' =
      bucketOf (entryOf tp name) k' := by
  rw [entryOf_increment]
  simp [bucketOf, applyIncrement_aggregates_miss data key _ hk]

theorem entryOf_increment_other (name : TransferStage) (data : Json)
    (aggregateKey : Option String) (tp : TransferProgress) (s : TransferStage)
    (hs : ¬ s = name) :
    entryOf (incrementTransferProgress name data aggregateKey tp) s = entryOf tp s := by
  rw [entryOf_increment]
  simp [hs]

/-- Sum of a numeric projection over a bucket list after the
create-if-absent step, when the default's projection is zero. -/
theorem sum_map_ensureIf {α β : Type} [DecidableEq α] (k : α) (d : β) (g : β → Nat)
    (l : List (α × β)) (hd : g d = 0) :
    (((if (lookupEntry k l).isSome then l else l ++ [(k, d)])).map (fun p => g p.2)).sum =
      (l.map (fun p => g p.2)).sum := by
  by_cases hn : (lookupEntry k l).isSome <;> simp [hn, hd]

theorem sumAggCounts_increment (name : TransferStage) (data : Json) (key : String)
    (tp : TransferProgress) :
    sumAggCounts (incrementTransferProgress name data (some key) tp) name =
      sumAggCounts tp name + (if data.hasKey key then 1 else 0) := by
  cases hk : data.hasKey key
  · simp [sumAggCounts, entryOf_increment, applyIncrement_aggregates_miss data key _ hk]
  · simp only [sumAggCounts, entryOf_increment, if_pos rfl,
      applyIncrement_aggregates_hit data key _ hk, Option.getD_some, if_true]
    have hsome : (lookupEntry (aggKeyOf data key)
        (if (lookupEntry (aggKeyOf data key) ((entryOf tp name).aggregates.getD [])).isSome
          then (entryOf tp name).aggregates.getD []
          else (entryOf tp name).aggregates.getD [] ++ [(aggKeyOf data key, ⟨0, 0⟩)])).isSome := by
      rw [lookupEntry_ensureIf]
      simp
    have hupd := sum_map_updateEntry (aggKeyOf data key)
      (fun b => (⟨b.count + 1, b.bytes + data.size⟩ : AggregateEntry))
      (fun b => b.count) 1
      (if (lookupEntry (aggKeyOf data key) ((entryOf tp name).aggregates.getD [])).isSome
        then (entryOf tp name).aggregates.getD []
        else (entryOf tp name).aggregates.getD [] ++ [(aggKeyOf data key, ⟨0, 0⟩)])
      hsome (fun b => rfl)
    rw [hupd, sum_map_ensureIf (aggKeyOf data key) (⟨0, 0⟩ : AggregateEntry)
      (fun b => b.count) ((entryOf tp name).aggregates.getD []) rfl]

theorem sumAggBytes_increment (name : TransferStage) (data : Json) (key : String)
    (tp : TransferProgress) :
    sumAggBytes (incrementTransferProgress name data (some key) tp) name =
      sumAggBytes tp name + (if data.hasKey key then data.size else 0) := by
  cases hk : data.hasKey key
  · simp [sumAggBytes, entryOf_increment, applyIncrement_aggregates_miss data key _ hk]
  · simp only [sumAggBytes, entryOf_increment, if_pos rfl,
      applyIncrement_aggregates_hit data key _ hk, Option.getD_some, if_true]
    have hsome : (lookupEntry (aggKeyOf data key)
        (if (lookupEntry (aggKeyOf data key) ((entryOf tp name).aggregates.getD [])).isSome
          then (entryOf tp name).aggregates.getD []
          else (entryOf tp name).aggregates.getD [] ++ [(aggKeyOf data key, ⟨0, 0⟩)])).isSome := by
      rw [lookupEntry_ensureIf]
      simp
    have hupd := sum_map_updateEntry (aggKeyOf data key)
      (fun b => (⟨b.count + 1, b.bytes + data.size⟩ : AggregateEntry))
      (fun b => b.bytes) data.size
      (if (lookupEntry (aggKeyOf data key) ((entryOf tp name).aggregates.getD [])).isSome
        then (entryOf tp name).aggregates.getD []
        else (entryOf tp name).aggregates.getD [] ++ [(aggKeyOf data key, ⟨0, 0⟩)])
      hsome (fun b => rfl)
    rw [hupd, sum_map_ensureIf (aggKeyOf data key) (⟨0, 0⟩ : AggregateEntry)
      (fun b => b.bytes) ((entryOf tp name).aggregates.getD []) rfl]

theorem bucketOf_increment_none (name : TransferStage) (data : Json)
    (tp : TransferProgress) (k' : String) :
    bucketOf (entryOf (incrementTransferProgress name data none tp) name) k' =
      bucketOf (entryOf tp name) k' := by
  rw [entryOf_increment]
  simp [bucketOf, applyIncrement_aggregates_none]

/-- Folding the recorder over an item list: total stage count grows by the
number of items. -/
theorem fold_stageCount (s : TransferStage) (key : String) (items : List Json)
    (tp : TransferProgress) :
    stageCount (items.foldl (fun t it => incrementTransferProgress s it (some key) t) tp) s =
      stageCount tp s + items.length := by
  induction items generalizing tp with
  | nil => simp
  | cons it rest ih =>
    simp [List.foldl_cons, ih, stageCount_increment]
    omega

/-- Folding the recorder over an item list: total stage bytes grow by the
sum of the items' serialized sizes. -/
theorem fold_stageBytes (s : TransferStage) (key : String) (items : List Json)
    (tp : TransferProgress) :
    stageBytes (items.foldl (fun t it => incrementTransferProgress s it (some key) t) tp) s =
      stageBytes tp s + (items.map Json.size).sum := by
  induction items generalizing tp with
  | nil => simp
  | cons it rest ih =>
    simp [List.foldl_cons, ih, stageBytes_increment]
    omega

/-- Folding the recorder: the aggregate counts sum grows by the number of
items that carry the aggregate key. -/
theorem fold_sumAggCounts (s : TransferStage) (key : String) (items : List Json)
    (tp : TransferProgress) :
    sumAggCounts (items.foldl (fun t it => incrementTransferProgress s it (some key) t) tp) s =
      sumAggCounts tp s + (items.filter (fun it => it.hasKey key)).length := by
  induction items generalizing tp with
  | nil => simp
  | cons it rest ih =>
    simp only [List.foldl_cons, ih, sumAggCounts_increment]
    cases hk : it.hasKey key
    · simp [List.filter_cons, hk]
    · simp [List.filter_cons, hk]
      omega

/-- Folding the recorder: the aggregate bytes sum grows by the summed
sizes of the items that carry the aggregate key. -/
theorem fold_sumAggBytes (s : TransferStage) (key : String) (items : List Json)
    (tp : TransferProgress) :
    sumAggBytes (items.foldl (fun t it => incrementTransferProgress s it (some key) t) tp) s =
      sumAggBytes tp s + (((items.filter (fun it => it.hasKey key)).map Json.size)).sum := by
  induction items generalizing tp with
  | nil => simp
  | cons it rest ih =>
    simp only [List.foldl_cons, ih, sumAggBytes_increment]
    cases hk : it.hasKey key
    · simp [List.filter_cons, hk]
    · simp [List.filter_cons, hk]
      omega

/-! ### Concrete items used by witnesses and counterexamples -/

/-- An entity item carrying the aggregate key `type`. -/
def itemEntity : Json :=
  .obj (.cons "type" (.str "article") (.cons "id" (.num 7) .nil))

/-- An item that does not carry the aggregate key `type`. -/
def itemNoType : Json :=
  .obj (.cons "id" (.num 1) .nil)

/-- C6: recording an item under a stage adds exactly 1 to the stage's
count and the item's serialized size to its bytes; with an aggregate key
the item carries, the bucket keyed by the item's value for that key gains
the same 1/size (buckets and entries read as zero before their first
use, which is how they are created); and no counter anywhere decreases. -/
theorem claim_C6 (s : TransferStage) (item : Json) (ak : Option String) (tp : TransferProgress) :
    stageCount (incrementTransferProgress s item ak tp) s = stageCount tp s + 1 ∧
    stageBytes (incrementTransferProgress s item ak tp) s = stageBytes tp s + item.size ∧
    (∀ key, ak = some key → item.hasKey key = true →
      aggCount (incrementTransferProgress s item ak tp) s (aggKeyOf item key) =
        aggCount tp s (aggKeyOf item key) + 1 ∧
      aggBytes (incrementTransferProgress s item ak tp) s (aggKeyOf item key) =
        aggBytes tp s (aggKeyOf item key) + item.size) ∧
    (∀ s', stageCount tp s' ≤ stageCount (incrementTransferProgress s item ak tp) s' ∧
      stageBytes tp s' ≤ stageBytes (incrementTransferProgress s item ak tp) s') ∧
    (∀ s' k', aggCount tp s' k' ≤ aggCount (incrementTransferProgress s item ak tp) s' k' ∧
      aggBytes tp s' k' ≤ aggBytes (incrementTransferProgress s item ak tp) s' k') := by
  refine ⟨?_, ?_, ?_, ?_, ?_⟩
  · simp [stageCount_increment]
  · simp [stageBytes_increment]
  · intro key hak hk
    subst hak
    constructor
    · simp [aggCount, bucketOf_increment_hit s item key tp hk]
    · simp [aggBytes, bucketOf_increment_hit s item key tp hk]
  · intro s'
    constructor
    · rw [stageCount_increment]
      by_cases hs : s' = s <;> simp [hs]
    · rw [stageBytes_increment]
      by_cases hs : s' = s <;> simp [hs]
  · intro s' k'
    by_cases hs : s' = s
    · subst hs
      cases ak with
      | none => simp [aggCount, aggBytes, bucketOf_increment_none]
      | some key =>
        cases hk : item.hasKey key
        · simp [aggCount, aggBytes, bucketOf_increment_miss s' item key tp hk]
        · constructor
          · simp only [aggCount, bucketOf_increment_hit s' item key tp hk]
            by_cases hkk : k' = aggKeyOf item key <;> simp [hkk]
          · simp only [aggBytes, bucketOf_increment_hit s' item key tp hk]
            by_cases hkk : k' = aggKeyOf item key <;> simp [hkk]
    · simp [aggCount, aggBytes, entryOf_increment_other s item ak tp s' hs]

/-- Closed instance of `claim_C6` at a concrete entity item. -/
theorem claim_C6_witness :
    itemEntity.hasKey "type" = true ∧
    stageCount (incrementTransferProgress .entities itemEntity (some "type") []) .entities =
      stageCount ([] : TransferProgress) .entities + 1 ∧
    aggCount (incrementTransferProgress .entities itemEntity (some "type") []) .entities
        (aggKeyOf itemEntity "type") =
      aggCount ([] : TransferProgress) .entities (aggKeyOf itemEntity "type") + 1 :=
  ⟨by decide, (claim_C6 .entities itemEntity (some "type") []).1,
    ((claim_C6 .entities itemEntity (some "type") []).2.2.1 "type" rfl (by decide)).1⟩

/-- C7: over any recorded sequence, the aggregate buckets of a stage sum
(in count and in bytes) to exactly the contribution of the items that
carry the aggregate key, while the stage totals cover all items; an item
lacking the key changes no aggregate bucket. -/
theorem claim_C7 (s : TransferStage) (key : String) (items : List Json) (tp : TransferProgress) :
    sumAggCounts (items.foldl (fun t it => incrementTransferProgress s it (some key) t) tp) s =
      sumAggCounts tp s + (items.filter (fun it => it.hasKey key)).length ∧
    sumAggBytes (items.foldl (fun t it => incrementTransferProgress s it (some key) t) tp) s =
      sumAggBytes tp s + ((items.filter (fun it => it.hasKey key)).map Json.size).sum ∧
    stageCount (items.foldl (fun t it => incrementTransferProgress s it (some key) t) tp) s =
      stageCount tp s + items.length ∧
    stageBytes (items.foldl (fun t it => incrementTransferProgress s it (some key) t) tp) s =
      stageBytes tp s + (items.map Json.size).sum ∧
    (∀ it, it.hasKey key = false → ∀ k',
      aggCount (incrementTransferProgress s it (some key) tp) s k' = aggCount tp s k' ∧
      aggBytes (incrementTransferProgress s it (some key) tp) s k' = aggBytes tp s k') := by
  refine ⟨fold_sumAggCounts s key items tp, fold_sumAggBytes s key items tp,
    fold_stageCount s key items tp, fold_stageBytes s key items tp, ?_⟩
  intro it hit k'
  constructor
  · simp [aggCount, bucketOf_increment_miss s it key tp hit]
  · simp [aggBytes, bucketOf_increment_miss s it key tp hit]

/-- Closed instance of `claim_C7` at a concrete two-item sequence, one
item carrying the key and one not. -/
theorem claim_C7_witness :
    sumAggCounts ([itemEntity, itemNoType].foldl
        (fun t it => incrementTransferProgress .entities it (some "type") t) []) .entities =
      sumAggCounts ([] : TransferProgress) .entities +
        ([itemEntity, itemNoType].filter (fun it => it.hasKey "type")).length ∧
    itemNoType.hasKey "type" = false ∧
    aggCount (incrementTransferProgress .entities itemNoType (some "type") []) .entities "article" =
      aggCount ([] : TransferProgress) .entities "article" :=
  ⟨(claim_C7 .entities "type" [itemEntity, itemNoType] []).1, by decide,
    ((claim_C7 .entities "type" [itemEntity, itemNoType] []).2.2.2.2 itemNoType
      (by decide) "article").1⟩

/-! ### Event traces -/

/-- The events one stream-run stage writes: `start`, one `progress` per
item, `complete`. -/
def stageBlock (s : TransferStage) (n : Nat) : List ProgressEvent :=
  ⟨.start, s⟩ :: (List.replicate n ⟨.progress, s⟩ ++ [⟨.complete, s⟩])

/-- The item sequence a stage pulls from the source provider (empty for
the stub `media` stage and for absent capabilities). -/
def stageItemsOf (src : ISourceProvider) : TransferStage → List Json
  | .schemas => src.streamSchemas.getD []
  | .entities => src.streamEntities.getD []
  | .links => src.streamLinks.getD []
  | .media => []
  | .configuration => src.streamConfiguration.getD []

/-- The error side of a `transfer()` outcome. -/
def errorResult :
    Except (String × EngineState) (EngineState × ITransferResults) → Option (String × EngineState)
  | .error r => some r
  | .ok _ => none

/-- The events written by a `transfer()` run, whether it resolved or
rejected. -/
def runEvents :
    Except (String × EngineState) (EngineState × ITransferResults) → List ProgressEvent
  | .ok (e, _) => e.events
  | .error (_, e) => e.events

theorem pipeThrough_events (name : TransferStage) (ak : Option String) (items : List Json)
    (e : EngineState) :
    (pipeThrough name ak items e).events =
      e.events ++ List.replicate items.length ⟨.progress, name⟩ := by
  induction items generalizing e with
  | nil => simp [pipeThrough]
  | cons it rest ih =>
    show (pipeThrough name ak rest (countRecorderStep name ak e it)).events = _
    rw [ih]
    simp [countRecorderStep, List.replicate_succ]

theorem transferSchemas_ok (src : ISourceProvider) (dst : IDestinationProvider)
    (items : List Json) (e : EngineState)
    (h1 : src.streamSchemas = some items) (h2 : dst.hasSchemasStream = true) :
    ∃ e', transferSchemas src dst e = .ok e' ∧
      e'.events = e.events ++ stageBlock .schemas items.length := by
  refine ⟨updateStep .complete .schemas
      (pipeThrough .schemas none items (updateStep .start .schemas e)), ?_, ?_⟩
  · simp [transferSchemas, h1, h2]
  · simp [updateStep, pipeThrough_events, stageBlock]

theorem transferEntities_ok (src : ISourceProvider) (dst : IDestinationProvider)
    (items : List Json) (e : EngineState)
    (h1 : src.streamEntities = some items) (h2 : dst.hasEntitiesStream = true) :
    ∃ e', transferEntities src dst e = .ok e' ∧
      e'.events = e.events ++ stageBlock .entities items.length := by
  refine ⟨updateStep .complete .entities
      (pipeThrough .entities (some "type") items (updateStep .start .entities e)), ?_, ?_⟩
  · simp [transferEntities, h1, h2]
  · simp [updateStep, pipeThrough_events, stageBlock]

theorem transferLinks_ok (src : ISourceProvider) (dst : IDestinationProvider)
    (items : List Json) (e : EngineState)
    (h1 : src.streamLinks = some items) (h2 : dst.hasLinksStream = true) :
    ∃ e', transferLinks src dst e = .ok e' ∧
      e'.events = e.events ++ stageBlock .links items.length := by
  refine ⟨updateStep .complete .links
      (pipeThrough .links none items (updateStep .start .links e)), ?_, ?_⟩
  · simp [transferLinks, h1, h2]
  · simp [updateStep, pipeThrough_events, stageBlock]

theorem transferConfiguration_ok (src : ISourceProvider) (dst : IDestinationProvider)
    (items : List Json) (e : EngineState)
    (h1 : src.streamConfiguration = some items) (h2 : dst.hasConfigurationStream = true) :
    ∃ e', transferConfiguration src dst e = .ok e' ∧
      e'.events = e.events ++ stageBlock .configuration items.length := by
  refine ⟨updateStep .complete .configuration
      (pipeThrough .configuration none items (updateStep .start .configuration e)), ?_, ?_⟩
  · simp [transferConfiguration, h1, h2]
  · simp [updateStep, pipeThrough_events, stageBlock]

theorem transferMedia_ok (e : EngineState) :
    ∃ e', transferMedia e = .ok e' ∧
      e'.events = e.events ++ stageBlock .media 0 ∧
      e'.transferProgress = e.transferProgress := by
  refine ⟨_, rfl, ?_, rfl⟩
  simp [updateStep, stageBlock]

theorem integrityCheck_events (src : ISourceProvider) (dst : IDestinationProvider)
    (opts : ITransferEngineOptions) (e : EngineState) :
    (integrityCheck src dst opts e).2.events = e.events := by
  unfold integrityCheck
  rcases src.metadata with _ | sm
  · rfl
  · rcases dst.metadata with _ | dm
    · rfl
    · dsimp only
      split <;> rfl

/-- A run in which every capability is present and the integrity check
passed: the full event trace, stage by stage, in the source's order —
media third, links fourth. -/
theorem transfer_ok_trace (src : ISourceProvider) (dst : IDestinationProvider)
    (opts : ITransferEngineOptions) (e0 : EngineState) (a b c d : List Json)
    (h1 : src.streamSchemas = some a) (h2 : dst.hasSchemasStream = true)
    (h3 : src.streamEntities = some b) (h4 : dst.hasEntitiesStream = true)
    (h5 : src.streamLinks = some c) (h6 : dst.hasLinksStream = true)
    (h7 : src.streamConfiguration = some d) (h8 : dst.hasConfigurationStream = true)
    (h9 : (integrityCheck src dst opts e0).1 = true) :
    ∃ e', transfer src dst opts e0 = .ok (e', ⟨src.results, dst.results⟩) ∧
      e'.events = e0.events ++ stageBlock .schemas a.length ++ stageBlock .entities b.length
        ++ stageBlock .media 0 ++ stageBlock .links c.length
        ++ stageBlock .configuration d.length := by
  obtain ⟨e1, he1, hv1⟩ := transferSchemas_ok src dst a (integrityCheck src dst opts e0).2 h1 h2
  obtain ⟨e2, he2, hv2⟩ := transferEntities_ok src dst b e1 h3 h4
  obtain ⟨e3, he3, hv3, _⟩ := transferMedia_ok e2
  obtain ⟨e4, he4, hv4⟩ := transferLinks_ok src dst c e3 h5 h6
  obtain ⟨e5, he5, hv5⟩ := transferConfiguration_ok src dst d e4 h7 h8
  refine ⟨e5, ?_, ?_⟩
  · simp [transfer, h9, he1, he2, he3, he4, he5]
  · rw [hv5, hv4, hv3, hv2, hv1, integrityCheck_events]

theorem filter_stageBlock (s' s : TransferStage) (n : Nat) :
    (stageBlock s' n).filter (fun ev => ev.name == s) =
      if s' = s then stageBlock s' n else [] := by
  by_cases h : s' = s
  · subst h
    simp [stageBlock, List.filter_append, List.filter_replicate]
  · simp [stageBlock, List.filter_append, List.filter_replicate, h]

/-! ### Concrete providers used by witnesses and counterexamples -/

/-- A source provider with every stream capability present. -/
def srcDemo : ISourceProvider :=
  { name := "source", results := .null, metadata := none,
    streamSchemas := some [itemNoType], streamEntities := some [itemEntity],
    streamLinks := some [], streamConfiguration := some [itemNoType] }

/-- A destination provider with every stream capability present. -/
def dstDemo : IDestinationProvider :=
  { name := "destination", results := .null, metadata := none,
    hasSchemasStream := true, hasEntitiesStream := true,
    hasLinksStream := true, hasConfigurationStream := true }

/-- Options with an empty exclude set. -/
def optsDemo : ITransferEngineOptions :=
  { conflictStrategy := "restore", versionMatching := .exact, exclude := [] }

/-- Options that ask to exclude the media and links stages. -/
def optsExcl : ITransferEngineOptions :=
  { conflictStrategy := "restore", versionMatching := .exact, exclude := ["media", "links"] }

/-- `srcDemo` with the `streamLinks` capability absent. -/
def srcNoLinks : ISourceProvider :=
  { srcDemo with streamLinks := none }

/-- C1 counterexample: on a full successful run the engine emits the
media stage's events before the links stage's events — `transfer()`
awaits `transferMedia` before `transferLinks` — so the claimed sequence
`… links … media …` is not the emitted one. -/
theorem claim_C1_counterexample :
    (transfer srcDemo dstDemo optsDemo (createTransferEngine srcDemo dstDemo optsDemo)).isOk
      = true ∧
    runEvents (transfer srcDemo dstDemo optsDemo (createTransferEngine srcDemo dstDemo optsDemo)) =
      [⟨.start, .schemas⟩, ⟨.progress, .schemas⟩, ⟨.complete, .schemas⟩,
       ⟨.start, .entities⟩, ⟨.progress, .entities⟩, ⟨.complete, .entities⟩,
       ⟨.start, .media⟩, ⟨.complete, .media⟩,
       ⟨.start, .links⟩, ⟨.complete, .links⟩,
       ⟨.start, .configuration⟩, ⟨.progress, .configuration⟩, ⟨.complete, .configuration⟩] ∧
    (runEvents (transfer srcDemo dstDemo optsDemo
        (createTransferEngine srcDemo dstDemo optsDemo))).findIdx
        (fun ev => ev == ⟨.start, .media⟩) <
      (runEvents (transfer srcDemo dstDemo optsDemo
        (createTransferEngine srcDemo dstDemo optsDemo))).findIdx
        (fun ev => ev == ⟨.start, .links⟩) := by
  decide

/-- C1 (amended): a full `transfer()` with every capability present and a
passing integrity check runs the five stages in the fixed order
`schemas, entities, media, links, configuration` — media third, links
fourth, unlike the claimed order — and the emitted event sequence is
exactly the concatenation of the per-stage blocks, with no
interleaving. -/
theorem claim_C1 (src : ISourceProvider) (dst : IDestinationProvider)
    (opts : ITransferEngineOptions) (a b c d : List Json)
    (h1 : src.streamSchemas = some a) (h2 : dst.hasSchemasStream = true)
    (h3 : src.streamEntities = some b) (h4 : dst.hasEntitiesStream = true)
    (h5 : src.streamLinks = some c) (h6 : dst.hasLinksStream = true)
    (h7 : src.streamConfiguration = some d) (h8 : dst.hasConfigurationStream = true)
    (h9 : (integrityCheck src dst opts (createTransferEngine src dst opts)).1 = true) :
    ∃ e', transfer src dst opts (createTransferEngine src dst opts) =
        .ok (e', ⟨src.results, dst.results⟩) ∧
      e'.events = stageBlock .schemas a.length ++ stageBlock .entities b.length
        ++ stageBlock .media 0 ++ stageBlock .links c.length
        ++ stageBlock .configuration d.length := by
  obtain ⟨e', h, hev⟩ := transfer_ok_trace src dst opts (createTransferEngine src dst opts)
    a b c d h1 h2 h3 h4 h5 h6 h7 h8 h9
  exact ⟨e', h, by simpa [createTransferEngine] using hev⟩

/-- Closed instance of `claim_C1` on concrete providers. -/
theorem claim_C1_witness :
    srcDemo.streamSchemas = some [itemNoType] ∧
    (∃ e', transfer srcDemo dstDemo optsDemo (createTransferEngine srcDemo dstDemo optsDemo) =
        .ok (e', ⟨srcDemo.results, dstDemo.results⟩) ∧
      e'.events = stageBlock .schemas 1 ++ stageBlock .entities 1 ++ stageBlock .media 0
        ++ stageBlock .links 0 ++ stageBlock .configuration 1) :=
  ⟨rfl, claim_C1 srcDemo dstDemo optsDemo [itemNoType] [itemEntity] [] [itemNoType]
    rfl rfl rfl rfl rfl rfl rfl rfl (by decide)⟩

/-- C3 counterexample: with `exclude = [media, links]` the run still
executes and emits events for both supposedly-excluded stages —
`transfer()` never consults `options.exclude`. -/
theorem claim_C3_counterexample :
    "media" ∈ optsExcl.exclude ∧ "links" ∈ optsExcl.exclude ∧
    (transfer srcDemo dstDemo optsExcl (createTransferEngine srcDemo dstDemo optsExcl)).isOk
      = true ∧
    ProgressEvent.mk .start .media ∈
      runEvents (transfer srcDemo dstDemo optsExcl
        (createTransferEngine srcDemo dstDemo optsExcl)) ∧
    ProgressEvent.mk .start .links ∈
      runEvents (transfer srcDemo dstDemo optsExcl
        (createTransferEngine srcDemo dstDemo optsExcl)) := by
  decide

/-- C3 (amended): the `exclude` option is stored at construction but
never consulted: `transfer()` behaves identically for every exclude set,
so every stage runs (and emits its events) whether named in `exclude` or
not. -/
theorem claim_C3 (src : ISourceProvider) (dst : IDestinationProvider)
    (opts : ITransferEngineOptions) (ex : List String) (e0 : EngineState) :
    transfer src dst { opts with exclude := ex } e0 = transfer src dst opts e0 := rfl

/-- C5: a stream-based stage whose source or destination capability is
absent rejects with the stage-specific message naming the stage and the
side, returning the engine state untouched — so before any data flows
and before its `start` event; in particular a source without
`streamLinks` makes `transfer()` reject with the links message and no
`start(links)` event is ever emitted. -/
theorem claim_C5 (src : ISourceProvider) (dst : IDestinationProvider) (e : EngineState) :
    (src.streamSchemas = none →
      transferSchemas src dst e =
        .error ("Unable to transfer schemas, source stream is missing", e)) ∧
    (∀ items, src.streamSchemas = some items → dst.hasSchemasStream = false →
      transferSchemas src dst e =
        .error ("Unable to transfer schemas, destination stream is missing", e)) ∧
    (src.streamEntities = none →
      transferEntities src dst e =
        .error ("Unable to transfer entities, source stream is missing", e)) ∧
    (∀ items, src.streamEntities = some items → dst.hasEntitiesStream = false →
      transferEntities src dst e =
        .error ("Unable to transfer entities, destination stream is missing", e)) ∧
    (src.streamLinks = none →
      transferLinks src dst e =
        .error ("Unable to transfer links, source stream is missing", e)) ∧
    (∀ items, src.streamLinks = some items → dst.hasLinksStream = false →
      transferLinks src dst e =
        .error ("Unable to transfer links, destination stream is missing", e)) ∧
    (src.streamConfiguration = none →
      transferConfiguration src dst e =
        .error ("Unable to transfer configuration, source stream is missing", e)) ∧
    (∀ items, src.streamConfiguration = some items → dst.hasConfigurationStream = false →
      transferConfiguration src dst e =
        .error ("Unable to transfer configuration, destination stream is missing", e)) ∧
    (∀ opts a b, src.streamSchemas = some a → dst.hasSchemasStream = true →
      src.streamEntities = some b → dst.hasEntitiesStream = true →
      src.streamLinks = none →
      (integrityCheck src dst opts (createTransferEngine src dst opts)).1 = true →
      ∃ e', transfer src dst opts (createTransferEngine src dst opts) =
          .error ("Unable to transfer links, source stream is missing", e') ∧
        ProgressEvent.mk .start .links ∉ e'.events) := by
  refine ⟨?_, ?_, ?_, ?_, ?_, ?_, ?_, ?_, ?_⟩
  · intro h
    simp [transferSchemas, h]
  · intro items h1 h2
    simp [transferSchemas, h1, h2]
  · intro h
    simp [transferEntities, h]
  · intro items h1 h2
    simp [transferEntities, h1, h2]
  · intro h
    simp [transferLinks, h]
  · intro items h1 h2
    simp [transferLinks, h1, h2]
  · intro h
    simp [transferConfiguration, h]
  · intro items h1 h2
    simp [transferConfiguration, h1, h2]
  · intro opts a b h1 h2 h3 h4 h5 h9
    obtain ⟨e1, he1, hv1⟩ := transferSchemas_ok src dst a
      (integrityCheck src dst opts (createTransferEngine src dst opts)).2 h1 h2
    obtain ⟨e2, he2, hv2⟩ := transferEntities_ok src dst b e1 h3 h4
    obtain ⟨e3, he3, hv3, _⟩ := transferMedia_ok e2
    refine ⟨e3, ?_, ?_⟩
    · simp [transfer, h9, he1, he2, he3, transferLinks, h5]
    · rw [hv3, hv2, hv1, integrityCheck_events]
      simp [createTransferEngine, stageBlock, List.mem_append, List.mem_replicate]

/-- Closed instance of `claim_C5`: a provider without `streamLinks`. -/
theorem claim_C5_witness :
    srcNoLinks.streamLinks = none ∧
    (∃ e', transfer srcNoLinks dstDemo optsDemo
        (createTransferEngine srcNoLinks dstDemo optsDemo) =
        .error ("Unable to transfer links, source stream is missing", e') ∧
      ProgressEvent.mk .start .links ∉ e'.events) :=
  ⟨rfl, (claim_C5 srcNoLinks dstDemo
      (createTransferEngine srcNoLinks dstDemo optsDemo)).2.2.2.2.2.2.2.2
    optsDemo [itemNoType] [itemEntity] rfl rfl rfl rfl rfl (by decide)⟩

/-- C8: on a full successful run every stage's events are exactly one
`start`, one `progress` per item, one `complete`, in that order, and
they form one contiguous block of the trace, so a stage is fully over
before the next stage's `start`. -/
theorem claim_C8 (src : ISourceProvider) (dst : IDestinationProvider)
    (opts : ITransferEngineOptions) (a b c d : List Json)
    (h1 : src.streamSchemas = some a) (h2 : dst.hasSchemasStream = true)
    (h3 : src.streamEntities = some b) (h4 : dst.hasEntitiesStream = true)
    (h5 : src.streamLinks = some c) (h6 : dst.hasLinksStream = true)
    (h7 : src.streamConfiguration = some d) (h8 : dst.hasConfigurationStream = true)
    (h9 : (integrityCheck src dst opts (createTransferEngine src dst opts)).1 = true) :
    ∃ e', transfer src dst opts (createTransferEngine src dst opts) =
        .ok (e', ⟨src.results, dst.results⟩) ∧
      ∀ s : TransferStage,
        e'.events.filter (fun ev => ev.name == s) =
          stageBlock s (stageItemsOf src s).length ∧
        stageBlock s (stageItemsOf src s).length <:+: e'.events := by
  obtain ⟨e', h, hev⟩ := transfer_ok_trace src dst opts (createTransferEngine src dst opts)
    a b c d h1 h2 h3 h4 h5 h6 h7 h8 h9
  have hev' : e'.events = stageBlock .schemas a.length ++ stageBlock .entities b.length
      ++ stageBlock .media 0 ++ stageBlock .links c.length
      ++ stageBlock .configuration d.length := by
    simpa [createTransferEngine] using hev
  refine ⟨e', h, ?_⟩
  intro s
  constructor
  · cases s <;>
      simp [hev', List.filter_append, filter_stageBlock, stageItemsOf, h1, h3, h5, h7]
  · cases s with
    | schemas =>
      refine ⟨[], stageBlock .entities b.length ++ stageBlock .media 0
        ++ stageBlock .links c.length ++ stageBlock .configuration d.length, ?_⟩
      simp [hev', stageItemsOf, h1, List.append_assoc]
    | entities =>
      refine ⟨stageBlock .schemas a.length, stageBlock .media 0
        ++ stageBlock .links c.length ++ stageBlock .configuration d.length, ?_⟩
      simp [hev', stageItemsOf, h3, List.append_assoc]
    | media =>
      refine ⟨stageBlock .schemas a.length ++ stageBlock .entities b.length,
        stageBlock .links c.length ++ stageBlock .configuration d.length, ?_⟩
      simp [hev', stageItemsOf, List.append_assoc]
    | links =>
      refine ⟨stageBlock .schemas a.length ++ stageBlock .entities b.length
        ++ stageBlock .media 0, stageBlock .configuration d.length, ?_⟩
      simp [hev', stageItemsOf, h5, List.append_assoc]
    | configuration =>
      refine ⟨stageBlock .schemas a.length ++ stageBlock .entities b.length
        ++ stageBlock .media 0 ++ stageBlock .links c.length, [], ?_⟩
      simp [hev', stageItemsOf, h7, List.append_assoc]

/-- Closed instance of `claim_C8` on concrete providers. -/
theorem claim_C8_witness :
    srcDemo.streamEntities = some [itemEntity] ∧
    (∃ e', transfer srcDemo dstDemo optsDemo (createTransferEngine srcDemo dstDemo optsDemo) =
        .ok (e', ⟨srcDemo.results, dstDemo.results⟩) ∧
      ∀ s : TransferStage,
        e'.events.filter (fun ev => ev.name == s) =
          stageBlock s (stageItemsOf srcDemo s).length ∧
        stageBlock s (stageItemsOf srcDemo s).length <:+: e'.events) :=
  ⟨rfl, claim_C8 srcDemo dstDemo optsDemo [itemNoType] [itemEntity] [] [itemNoType]
    rfl rfl rfl rfl rfl rfl rfl rfl (by decide)⟩

/-- C9: the media stage is a stub: it always resolves, appends exactly
its `start` and `complete` events, logs the unimplemented warning, and
leaves `transferProgress` (and everything else) untouched. -/
theorem claim_C9 (e : EngineState) :
    transferMedia e = .ok { e with
      events := e.events ++ [⟨.start, .media⟩, ⟨.complete, .media⟩],
      warnings := e.warnings ++ ["transferMedia not yet implemented"] } := by
  simp [transferMedia, updateStep]

/-! ### Version-matching lemmas -/

/-- Token `i` of the dot-split source version exists and equals token `i`
of the dot-split destination version — the spec's "token[i] equal",
stated independently of the engine's `tokensAgree`. -/
def specTokenEq (sv dv : String) (i : Nat) : Prop :=
  ((jsSplitDot sv).get? i).isSome = true ∧ (jsSplitDot sv).get? i = (jsSplitDot dv).get? i

instance (sv dv : String) (i : Nat) : Decidable (specTokenEq sv dv i) := by
  unfold specTokenEq
  infer_instance

theorem tokensAgree_iff (st dt : List String) (i : Nat) :
    tokensAgree st dt i = true ↔ (st.get? i).isSome = true ∧ st.get? i = dt.get? i := by
  unfold tokensAgree
  cases h : st.get? i with
  | none => simp
  | some v => simp [h, eq_comm]

theorem jsSplitDot_ne_nil (s : String) : jsSplitDot s ≠ [] := by
  unfold jsSplitDot
  generalize s.toList = l
  generalize ([] : List Char) = acc
  induction l generalizing acc with
  | nil => simp [splitDotAux]
  | cons c rest ih =>
    by_cases hc : c = '.' <;> simp [splitDotAux, hc, ih]

theorem tokensAgree_self_zero (st : List String) (h : st ≠ []) :
    tokensAgree st st 0 = true := by
  cases st with
  | nil => exact absurd rfl h
  | cons t rest => simp [tokensAgree]

/-- The non-truthy guard never fires for nonempty version strings. -/
theorem truthyCond (sv dv : String) (hsv : sv ≠ "") (hdv : dv ≠ "") :
    ¬ (¬ jsTruthyStr (some sv) = true ∨ ¬ jsTruthyStr (some dv) = true) := by
  simp [jsTruthyStr, hsv, hdv]

theorem assert_ignore_pass (sv dv : String) (hsv : sv ≠ "") (hdv : dv ≠ "") :
    (assertStrapiVersionIntegrity .ignore (some sv) (some dv)).isOk = true := by
  unfold assertStrapiVersionIntegrity
  rw [if_neg (truthyCond sv dv hsv hdv)]
  simp [Except.isOk, Except.toBool]

theorem assert_exact_iff (sv dv : String) (hsv : sv ≠ "") (hdv : dv ≠ "") :
    (assertStrapiVersionIntegrity .exact (some sv) (some dv)).isOk = true ↔ sv = dv := by
  unfold assertStrapiVersionIntegrity
  rw [if_neg (truthyCond sv dv hsv hdv)]
  by_cases he : sv = dv <;> simp [he, Except.isOk, Except.toBool]

theorem assert_major_iff (sv dv : String) (hsv : sv ≠ "") (hdv : dv ≠ "") :
    (assertStrapiVersionIntegrity .major (some sv) (some dv)).isOk = true ↔
      specTokenEq sv dv 0 := by
  unfold assertStrapiVersionIntegrity
  rw [if_neg (truthyCond sv dv hsv hdv)]
  unfold specTokenEq
  rw [← tokensAgree_iff]
  cases h0 : tokensAgree (jsSplitDot sv) (jsSplitDot dv) 0 <;> simp [h0, Except.isOk, Except.toBool]

theorem assert_minor_iff (sv dv : String) (hsv : sv ≠ "") (hdv : dv ≠ "") :
    (assertStrapiVersionIntegrity .minor (some sv) (some dv)).isOk = true ↔
      specTokenEq sv dv 0 ∧ specTokenEq sv dv 1 := by
  unfold assertStrapiVersionIntegrity
  rw [if_neg (truthyCond sv dv hsv hdv)]
  unfold specTokenEq
  rw [← tokensAgree_iff, ← tokensAgree_iff]
  cases h0 : tokensAgree (jsSplitDot sv) (jsSplitDot dv) 0 <;>
    cases h1 : tokensAgree (jsSplitDot sv) (jsSplitDot dv) 1 <;> simp [h0, h1, Except.isOk, Except.toBool]

theorem assert_patch_iff (sv dv : String) (hsv : sv ≠ "") (hdv : dv ≠ "") :
    (assertStrapiVersionIntegrity .patch (some sv) (some dv)).isOk = true ↔
      specTokenEq sv dv 0 ∧ specTokenEq sv dv 1 ∧ specTokenEq sv dv 2 := by
  unfold assertStrapiVersionIntegrity
  rw [if_neg (truthyCond sv dv hsv hdv)]
  unfold specTokenEq
  rw [← tokensAgree_iff, ← tokensAgree_iff, ← tokensAgree_iff]
  cases h0 : tokensAgree (jsSplitDot sv) (jsSplitDot dv) 0 <;>
    cases h1 : tokensAgree (jsSplitDot sv) (jsSplitDot dv) 1 <;>
      cases h2 : tokensAgree (jsSplitDot sv) (jsSplitDot dv) 2 <;> simp [h0, h1, h2, Except.isOk, Except.toBool]

/-- Strategy `major` passes on every identical pair: an empty version is
non-truthy (trivial pass) and otherwise the split has a token 0 that
matches itself. -/
theorem assert_major_self (v : String) :
    (assertStrapiVersionIntegrity .major (some v) (some v)).isOk = true := by
  by_cases hv : v = ""
  · subst hv
    rfl
  · rw [assert_major_iff v v hv hv]
    have h := tokensAgree_self_zero (jsSplitDot v) (jsSplitDot_ne_nil v)
    rw [tokensAgree_iff] at h
    exact h

/-- C4: for present (nonempty, hence truthy) version strings the check
passes under `ignore` always, under `exact` iff the strings are
identical, and under `major`/`minor`/`patch` iff the first 1/2/3
dot-separated tokens respectively exist on the source side and match the
destination side; in every other case it fails. -/
theorem claim_C4 (sv dv : String) (hsv : sv ≠ "") (hdv : dv ≠ "") :
    (assertStrapiVersionIntegrity .ignore (some sv) (some dv)).isOk = true ∧
    ((assertStrapiVersionIntegrity .exact (some sv) (some dv)).isOk = true ↔ sv = dv) ∧
    ((assertStrapiVersionIntegrity .major (some sv) (some dv)).isOk = true ↔
      specTokenEq sv dv 0) ∧
    ((assertStrapiVersionIntegrity .minor (some sv) (some dv)).isOk = true ↔
      specTokenEq sv dv 0 ∧ specTokenEq sv dv 1) ∧
    ((assertStrapiVersionIntegrity .patch (some sv) (some dv)).isOk = true ↔
      specTokenEq sv dv 0 ∧ specTokenEq sv dv 1 ∧ specTokenEq sv dv 2) :=
  ⟨assert_ignore_pass sv dv hsv hdv, assert_exact_iff sv dv hsv hdv,
    assert_major_iff sv dv hsv hdv, assert_minor_iff sv dv hsv hdv,
    assert_patch_iff sv dv hsv hdv⟩

/-- Closed instance of `claim_C4` at the spec's own example pair. -/
theorem claim_C4_witness :
    ("1.2.3" : String) ≠ "" ∧ ("1.2.4" : String) ≠ "" ∧
    ((assertStrapiVersionIntegrity .exact (some "1.2.3") (some "1.2.4")).isOk = true ↔
      ("1.2.3" : String) = "1.2.4") ∧
    ((assertStrapiVersionIntegrity .minor (some "1.2.3") (some "1.2.4")).isOk = true ↔
      specTokenEq "1.2.3" "1.2.4" 0 ∧ specTokenEq "1.2.3" "1.2.4" 1) :=
  ⟨by decide, by decide, (claim_C4 "1.2.3" "1.2.4" (by decide) (by decide)).2.1,
    (claim_C4 "1.2.3" "1.2.4" (by decide) (by decide)).2.2.2.1⟩

/-- C10 counterexample: the claim says only `ignore` and `exact` are
guaranteed to pass on identical version strings; here is a third
strategy with that guarantee — `major` succeeds on `(v, v)` for every
string `v`, since a dot-split always has a token 0 and it matches
itself. -/
theorem claim_C10_counterexample :
    ∃ s : VersionStrategy, s ≠ .ignore ∧ s ≠ .exact ∧
      ∀ v : String, (assertStrapiVersionIntegrity s (some v) (some v)).isOk = true :=
  ⟨.major, by decide, by decide, assert_major_self⟩

/-- C10 (amended): under `minor` (resp. `patch`) the check fails whenever
the source version has fewer than 2 (resp. 3) dot-separated tokens, even
against an identical destination; `ignore`, `exact` and also `major` are
guaranteed to pass on identical present version strings. -/
theorem claim_C10 (sv dv : String) (hsv : sv ≠ "") (hdv : dv ≠ "") :
    ((jsSplitDot sv).length < 2 →
      (assertStrapiVersionIntegrity .minor (some sv) (some dv)).isOk = false) ∧
    ((jsSplitDot sv).length < 3 →
      (assertStrapiVersionIntegrity .patch (some sv) (some dv)).isOk = false) ∧
    (assertStrapiVersionIntegrity .ignore (some sv) (some sv)).isOk = true ∧
    (assertStrapiVersionIntegrity .exact (some sv) (some sv)).isOk = true ∧
    (assertStrapiVersionIntegrity .major (some sv) (some sv)).isOk = true := by
  refine ⟨?_, ?_, assert_ignore_pass sv sv hsv hsv, ?_, assert_major_self sv⟩
  · intro hlen
    have hnone : (jsSplitDot sv).get? 1 = none := by
      rw [List.get?_eq_none]
      omega
    rw [List.get?_eq_getElem?] at hnone
    rw [Bool.eq_false_iff]
    intro hok
    rw [assert_minor_iff sv dv hsv hdv] at hok
    simp [specTokenEq, hnone] at hok
  · intro hlen
    have hnone : (jsSplitDot sv).get? 2 = none := by
      rw [List.get?_eq_none]
      omega
    rw [List.get?_eq_getElem?] at hnone
    rw [Bool.eq_false_iff]
    intro hok
    rw [assert_patch_iff sv dv hsv hdv] at hok
    simp [specTokenEq, hnone] at hok
  · rw [assert_exact_iff sv sv hsv hsv]

/-- Closed instance of `claim_C10` at the one-token version `"1"`. -/
theorem claim_C10_witness :
    ("1" : String) ≠ "" ∧ (jsSplitDot "1").length < 2 ∧
    (assertStrapiVersionIntegrity .minor (some "1") (some "1")).isOk = false ∧
    (assertStrapiVersionIntegrity .exact (some "1") (some "1")).isOk = true :=
  ⟨by decide, by decide, (claim_C10 "1" "1" (by decide) (by decide)).1 (by decide),
    (claim_C10 "1" "1" (by decide) (by decide)).2.2.2.1⟩

/-- `srcDemo` reporting platform version `1.2.3`. -/
def srcVer : ISourceProvider :=
  { srcDemo with metadata := some ⟨some ⟨some "1.2.3"⟩⟩ }

/-- `dstDemo` reporting platform version `1.2.4`. -/
def dstVer : IDestinationProvider :=
  { dstDemo with metadata := some ⟨some ⟨some "1.2.4"⟩⟩ }

/-- C2 counterexample: on mismatched versions under `exact`, the version
assertion raises the descriptive message, but `integrityCheck` catches
it and resolves `false`, and the error `transfer()` rejects with is the
generic provider-naming message — a different string, so the descriptive
error did not propagate unchanged. -/
theorem claim_C2_counterexample :
    assertStrapiVersionIntegrity .exact (some "1.2.3") (some "1.2.4") =
      .error (versionMismatchMessage .exact "1.2.3" "1.2.4") ∧
    (integrityCheck srcVer dstVer optsDemo (createTransferEngine srcVer dstVer optsDemo)).1
      = false ∧
    Option.map Prod.fst (errorResult (transfer srcVer dstVer optsDemo
        (createTransferEngine srcVer dstVer optsDemo))) =
      some (genericTransferError srcVer dstVer) ∧
    genericTransferError srcVer dstVer ≠ versionMismatchMessage .exact "1.2.3" "1.2.4" := by
  refine ⟨rfl, by decide, rfl, by decide⟩

/-- C2 (amended): errors thrown by the stage transfers propagate to the
caller unchanged (the `catch` rethrows), but a version-mismatch does
not: `integrityCheck` catches the descriptive error, logs it to the
console, and `transfer()` instead throws the generic error naming the
two providers. -/
theorem claim_C2 (src : ISourceProvider) (dst : IDestinationProvider)
    (opts : ITransferEngineOptions) (e0 : EngineState) :
    (∀ sv dv msg, src.metadata = some ⟨some ⟨some sv⟩⟩ → dst.metadata = some ⟨some ⟨some dv⟩⟩ →
      assertStrapiVersionIntegrity opts.versionMatching (some sv) (some dv) = .error msg →
      transfer src dst opts e0 = .error (genericTransferError src dst,
        { e0 with errorLogs := e0.errorLogs ++ ["Integrity checks failed: " ++ msg] })) ∧
    ((integrityCheck src dst opts e0).1 = true →
      ∀ r, transferSchemas src dst (integrityCheck src dst opts e0).2 = .error r →
        transfer src dst opts e0 = .error r) ∧
    ((integrityCheck src dst opts e0).1 = true →
      ∀ e1, transferSchemas src dst (integrityCheck src dst opts e0).2 = .ok e1 →
      ∀ r, transferEntities src dst e1 = .error r →
        transfer src dst opts e0 = .error r) ∧
    ((integrityCheck src dst opts e0).1 = true →
      ∀ e1, transferSchemas src dst (integrityCheck src dst opts e0).2 = .ok e1 →
      ∀ e2, transferEntities src dst e1 = .ok e2 →
      ∀ e3, transferMedia e2 = .ok e3 →
      ∀ r, transferLinks src dst e3 = .error r →
        transfer src dst opts e0 = .error r) ∧
    ((integrityCheck src dst opts e0).1 = true →
      ∀ e1, transferSchemas src dst (integrityCheck src dst opts e0).2 = .ok e1 →
      ∀ e2, transferEntities src dst e1 = .ok e2 →
      ∀ e3, transferMedia e2 = .ok e3 →
      ∀ e4, transferLinks src dst e3 = .ok e4 →
      ∀ r, transferConfiguration src dst e4 = .error r →
        transfer src dst opts e0 = .error r) := by
  refine ⟨?_, ?_, ?_, ?_, ?_⟩
  · intro sv dv msg hs hd ha
    have hic : integrityCheck src dst opts e0 =
        (false, { e0 with errorLogs := e0.errorLogs ++ ["Integrity checks failed: " ++ msg] }) := by
      simp [integrityCheck, hs, hd, ha]
    simp [transfer, hic]
  · intro h9 r hr
    simp [transfer, h9, hr]
  · intro h9 e1 he1 r hr
    simp [transfer, h9, he1, hr]
  · intro h9 e1 he1 e2 he2 e3 he3 r hr
    simp [transfer, h9, he1, he2, he3, hr]
  · intro h9 e1 he1 e2 he2 e3 he3 e4 he4 r hr
    simp [transfer, h9, he1, he2, he3, he4, hr]

/-- Closed instance of `claim_C2`: the mismatch `1.2.3` / `1.2.4` under
`exact` surfaces as the generic provider-naming error, with the
descriptive error only logged. -/
theorem claim_C2_witness :
    srcVer.metadata = some ⟨some ⟨some "1.2.3"⟩⟩ ∧
    transfer srcVer dstVer optsDemo (createTransferEngine srcVer dstVer optsDemo) =
      .error (genericTransferError srcVer dstVer,
        { createTransferEngine srcVer dstVer optsDemo with
            errorLogs := ["Integrity checks failed: "
              ++ versionMismatchMessage .exact "1.2.3" "1.2.4"] }) :=
  ⟨rfl, (claim_C2 srcVer dstVer optsDemo (createTransferEngine srcVer dstVer optsDemo)).1
    "1.2.3" "1.2.4" (versionMismatchMessage .exact "1.2.3" "1.2.4") rfl rfl rfl⟩

end DataTransfer

/-- The integrity-check vectors of the spec, evaluated on the embedded
checker. -/
theorem DataTransfer.assert_spec_vectors :
    (DataTransfer.assertStrapiVersionIntegrity .exact (some "1.2.3") (some "1.2.3")).isOk = true ∧
    (DataTransfer.assertStrapiVersionIntegrity .exact (some "1.2.3") (some "1.2.4")).isOk = false ∧
    (DataTransfer.assertStrapiVersionIntegrity .minor (some "1.2.3") (some "1.2.9")).isOk = true ∧
    (DataTransfer.assertStrapiVersionIntegrity .minor (some "1.2.3") (some "1.3.0")).isOk = false ∧
    (DataTransfer.assertStrapiVersionIntegrity .minor (some "1") (some "1")).isOk = false := by
  refine ⟨by decide, by decide, by decide, by decide, by decide⟩
